import Mathlib

/-!
Verification of the Keephy Categories Service (`src/index.js`).

The service is an Express + Mongoose CRUD server over a single `Category`
collection.  We embed the Mongo collection as a `List Category` (documents in
insertion order), identifiers as opaque strings, and each HTTP route handler as
a pure function from the store (plus the request data and, where the handler
reads the clock, the current time) to the new store and a response value.

Modelling decisions, each tied to a line of the source:
* `categorySchema` (lines 36-48): fields as in the schema; optional fields are
  `Option`, `subcategories` is a list of ids, timestamps are `Nat`.
* `Category.find(filter)` returns the documents matching the conjunction of
  the equality conditions in the filter object; `.sort({name: 1})` sorts
  ascending by name; `.populate('subcategories')` replaces each id in
  `subcategories` by the referenced document, dropping unresolved ids.
* `Category.findById` is first-match lookup by id; `findByIdAndUpdate` and
  `document.save()` replace the (unique) document with that id; `$addToSet`
  appends the value to the array when it is not already present.
* Express query/body values are modelled as `Option String` (absent or a
  string); the JavaScript truthiness tests `if (businessId)`, `if (!name)`,
  `if (parentId)` are `jsTruthy` (absent and the empty string are falsy).
* Mongoose (v6+) strips `undefined` keys from update documents, so an absent
  body field in the PUT handler leaves the stored value unchanged.
* The `unique: true` index on `name` (line 37) makes `save()` fail on a
  duplicate name; that surfaces as the handler's catch branch (HTTP 500).
-/

structure Category where
  id : String
  name : String
  description : Option String
  icon : Option String
  color : Option String
  isActive : Bool
  parentId : Option String
  subcategories : List String
  businessId : Option String
  tenantId : Option String
  createdAt : Nat
  updatedAt : Nat
deriving DecidableEq, Repr

/-- A category document whose `subcategories` ids have been expanded
(`populate`) into the full child documents. -/
structure PopulatedCategory where
  base : Category
  subcategories : List Category
deriving DecidableEq, Repr

/-- JavaScript truthiness of an optional string request value: `undefined`
(absent) and the empty string are falsy. -/
def jsTruthy : Option String → Bool
  | none => false
  | some s => !(s == "")

/-- `Category.findById`: first document with the given id, if any. -/
def findById (store : List Category) (id : String) : Option Category :=
  store.find? (fun c => c.id == id)

/-- Replace the first document with the given id (Mongo ids are unique, so
this is `findByIdAndUpdate` / saving a loaded document). -/
def updateFirst (id : String) (f : Category → Category) : List Category → List Category
  | [] => []
  | c :: rest => if c.id == id then f c :: rest else c :: updateFirst id f rest

/-- `$addToSet`: append the value when absent, no-op when present. -/
def addToSet (x : String) (l : List String) : List String :=
  if x ∈ l then l else l ++ [x]

/-- One equality condition of the list filter: `if (q) filter.field = q`
(lines 77-79).  When the query value is falsy no condition is added. -/
def condOpt (q field : Option String) : Bool :=
  if jsTruthy q then field == q else true

/-- The filter object built by `GET /api/categories` (lines 76-79):
`{ isActive: true }` plus one equality condition per truthy query value. -/
def matchesFilter (b t p : Option String) (c : Category) : Bool :=
  c.isActive && condOpt b c.businessId && condOpt t c.tenantId && condOpt p c.parentId

/-- `populate('subcategories')`: expand the stored child ids into full
documents, dropping ids that do not resolve. -/
def populate (store : List Category) (c : Category) : PopulatedCategory :=
  { base := c, subcategories := c.subcategories.filterMap (findById store) }

/-- Ordering used by `.sort({ name: 1 })`. -/
def nameLE (x y : Category) : Prop := x.name ≤ y.name

instance : DecidableRel nameLE := fun x y => inferInstanceAs (Decidable (x.name ≤ y.name))

instance : IsTotal Category nameLE := ⟨fun a b => le_total a.name b.name⟩

instance : IsTrans Category nameLE := ⟨fun _ _ _ h1 h2 => le_trans h1 h2⟩

/-- `GET /api/categories` (lines 72-97): find by the filter, sort ascending by
name, populate `subcategories`. -/
def listCategories (store : List Category) (b t p : Option String) : List PopulatedCategory :=
  (List.insertionSort nameLE (store.filter (matchesFilter b t p))).map (populate store)

inductive GetResult where
  | ok (doc : PopulatedCategory)
  | notFound
deriving DecidableEq, Repr

def GetResult.status : GetResult → Nat
  | .ok _ => 200
  | .notFound => 404

/-- `GET /api/categories/:id` (lines 100-123): `findById` + populate; 404 when
the id does not resolve.  No `isActive` condition is applied. -/
def getCategory (store : List Category) (id : String) : GetResult :=
  match findById store id with
  | none => .notFound
  | some c => .ok (populate store c)

structure CreateBody where
  name : Option String
  description : Option String
  icon : Option String
  color : Option String
  parentId : Option String
  businessId : Option String
  tenantId : Option String
deriving DecidableEq, Repr

inductive CreateResult where
  | created (doc : Category)
  | validationError
  | storeError
deriving DecidableEq, Repr

def CreateResult.status : CreateResult → Nat
  | .created _ => 201
  | .validationError => 400
  | .storeError => 500

/-- Whether `save()` would violate the unique index on `name` (line 37). -/
def dupName (store : List Category) (n : String) : Bool :=
  store.any (fun c => c.name == n)

/-- The document built by `new Category({...})` (lines 159-167): schema
defaults give `isActive := true`, `subcategories := []`, and both timestamps
equal to the creation time; `parentId: parentId || null` maps a falsy
`parentId` to `null`. -/
def newDoc (body : CreateBody) (newId : String) (now : Nat) : Category :=
  { id := newId
    name := body.name.getD ""
    description := body.description
    icon := body.icon
    color := body.color
    isActive := true
    parentId := if jsTruthy body.parentId then body.parentId else none
    subcategories := []
    businessId := body.businessId
    tenantId := body.tenantId
    createdAt := now
    updatedAt := now }

/-- `POST /api/categories` (lines 148-189): reject a falsy `name` with 400;
`save()` the new document (failing on a duplicate name); then, only when
`parentId` is truthy, `$addToSet` the new id into the parent's
`subcategories`. -/
def createCategory (store : List Category) (body : CreateBody) (newId : String) (now : Nat) :
    List Category × CreateResult :=
  if !jsTruthy body.name then (store, .validationError)
  else if dupName store (body.name.getD "") then (store, .storeError)
  else
    let doc := newDoc body newId now
    let store1 := store ++ [doc]
    let store2 :=
      if jsTruthy body.parentId then
        updateFirst (body.parentId.getD "")
          (fun p => { p with subcategories := addToSet newId p.subcategories }) store1
      else store1
    (store2, .created doc)

structure UpdateBody where
  name : Option String
  description : Option String
  icon : Option String
  color : Option String
  isActive : Option Bool
deriving DecidableEq, Repr

inductive UpdateResult where
  | ok (doc : Category)
  | notFound
deriving DecidableEq, Repr

def UpdateResult.status : UpdateResult → Nat
  | .ok _ => 200
  | .notFound => 404

/-- The update document of `PUT /api/categories/:id` (lines 198-205) applied
to a stored document: mongoose strips the `undefined` keys, so an absent body
field leaves the stored value, and `updatedAt` is always set to the current
time.  `parentId`, `subcategories`, `businessId`, `tenantId`, `createdAt` do
not appear in the update document. -/
def applyUpdate (body : UpdateBody) (now : Nat) (c : Category) : Category :=
  { c with
    name := body.name.getD c.name
    description := if body.description.isSome then body.description else c.description
    icon := if body.icon.isSome then body.icon else c.icon
    color := if body.color.isSome then body.color else c.color
    isActive := body.isActive.getD c.isActive
    updatedAt := now }

/-- `PUT /api/categories/:id` (lines 192-227): `findByIdAndUpdate` with
`{ new: true }`; 404 when the id does not resolve. -/
def updateCategory (store : List Category) (id : String) (body : UpdateBody) (now : Nat) :
    List Category × UpdateResult :=
  match findById store id with
  | none => (store, .notFound)
  | some c => (updateFirst id (fun d => applyUpdate body now d) store, .ok (applyUpdate body now c))

inductive DeleteResult where
  | deleted
  | notFound
deriving DecidableEq, Repr

def DeleteResult.status : DeleteResult → Nat
  | .deleted => 200
  | .notFound => 404

/-- `DELETE /api/categories/:id` (lines 230-256): load the document, set
`isActive = false`, `save()`; the response is the confirmation message
(`deleted` carries no document).  Nothing else in the document is touched. -/
def deleteCategory (store : List Category) (id : String) : List Category × DeleteResult :=
  match findById store id with
  | none => (store, .notFound)
  | some c => (updateFirst id (fun _ => { c with isActive := false }) store, .deleted)

/-! ### Store lemmas -/

theorem findById_mem {store : List Category} {id : String} {c : Category}
    (h : findById store id = some c) : c ∈ store ∧ c.id = id := by
  refine ⟨List.mem_of_find?_eq_some h, ?_⟩
  have := List.find?_some h
  simpa using this

theorem mem_updateFirst_of_ne {c : Category} {id : String} (f : Category → Category) :
    ∀ {store : List Category}, c ∈ store → c.id ≠ id → c ∈ updateFirst id f store := by
  intro store
  induction store with
  | nil => intro h _; exact absurd h (List.not_mem_nil c)
  | cons c1 rest ih =>
    intro hmem hne
    rcases List.mem_cons.mp hmem with h1 | h1
    · subst h1
      have : (c.id == id) = false := by simpa using hne
      simp [updateFirst, this]
    · by_cases hc1 : (c1.id == id) = true
      · simp [updateFirst, hc1]
        exact Or.inr h1
      · simp only [updateFirst, hc1, Bool.false_eq_true, if_false]
        exact List.mem_cons_of_mem _ (ih h1 hne)

theorem mem_updateFirst_self {id : String} {c : Category} (f : Category → Category) :
    ∀ {store : List Category}, findById store id = some c →
      f c ∈ updateFirst id f store := by
  intro store
  induction store with
  | nil => intro h; simp [findById] at h
  | cons c1 rest ih =>
    intro h
    by_cases hc1 : (c1.id == id) = true
    · rw [findById, @List.find?_cons_of_pos Category (fun c => c.id == id) c1 rest hc1] at h
      cases h
      simp [updateFirst, hc1]
    · rw [findById,
        @List.find?_cons_of_neg Category (fun c => c.id == id) c1 rest (by simpa using hc1)] at h
      simp only [updateFirst, hc1, Bool.false_eq_true, if_false]
      exact List.mem_cons_of_mem _ (ih h)

theorem length_updateFirst (id : String) (f : Category → Category) :
    ∀ store : List Category, (updateFirst id f store).length = store.length := by
  intro store
  induction store with
  | nil => rfl
  | cons c1 rest ih =>
    by_cases hc1 : (c1.id == id) = true
    · simp [updateFirst, hc1]
    · simp only [updateFirst, hc1, Bool.false_eq_true, if_false, List.length_cons, ih]

theorem findById_updateFirst {id : String} {c : Category} {f : Category → Category}
    (hid : (f c).id = c.id) :
    ∀ {store : List Category}, findById store id = some c →
      findById (updateFirst id f store) id = some (f c) := by
  intro store
  induction store with
  | nil => intro h; simp [findById] at h
  | cons c1 rest ih =>
    intro h
    by_cases hc1 : (c1.id == id) = true
    · rw [findById, @List.find?_cons_of_pos Category (fun c => c.id == id) c1 rest hc1] at h
      cases h
      have hfc : ((f c).id == id) = true := by
        rw [hid]; exact hc1
      simp only [updateFirst, hc1, if_true, findById]
      rw [@List.find?_cons_of_pos Category (fun c => c.id == id) (f c) rest hfc]
    · rw [findById,
        @List.find?_cons_of_neg Category (fun c => c.id == id) c1 rest (by simpa using hc1)] at h
      simp only [updateFirst, hc1, Bool.false_eq_true, if_false, findById]
      rw [@List.find?_cons_of_neg Category (fun c => c.id == id) c1
        (updateFirst id f rest) (by simpa using hc1)]
      exact ih h

theorem findById_append_left {store : List Category} {id : String} {c : Category}
    (h : findById store id = some c) (l2 : List Category) :
    findById (store ++ l2) id = some c := by
  unfold findById at h ⊢
  rw [List.find?_append, h]
  rfl

/-! ### Sample documents used by witnesses and counterexamples -/

def catActive : Category :=
  { id := "idA", name := "Food", description := none, icon := none, color := none,
    isActive := true, parentId := none, subcategories := [], businessId := none,
    tenantId := none, createdAt := 0, updatedAt := 0 }

def catInactive : Category := { catActive with isActive := false }

def catParent : Category := { catActive with id := "idP" }

def catTs : Category := { catActive with id := "idT", createdAt := 3, updatedAt := 3 }

def ubEmpty : UpdateBody :=
  { name := none, description := none, icon := none, color := none, isActive := none }

def ubRename : UpdateBody := { ubEmpty with name := some "Drinks", icon := some "ic" }

def ubReactivate : UpdateBody := { ubEmpty with isActive := some true }

def cbChild : CreateBody :=
  { name := some "Pizza", description := none, icon := none, color := none,
    parentId := some "idP", businessId := none, tenantId := none }

def cbNoName : CreateBody := { cbChild with name := none }

/-! ### Claims -/

/-- Claim C1: every List-categories result is exactly the stored categories
with `isActive = true` that match every supplied filter (conjunction of
equality conditions), sorted ascending by `name`, with each result's
`subcategories` expanded one level into the full child documents. -/
theorem list_categories_spec (store : List Category) (b t p : Option String) :
    ((listCategories store b t p).map PopulatedCategory.base).Perm
      (store.filter (matchesFilter b t p)) ∧
    List.Sorted (· ≤ ·) ((listCategories store b t p).map (fun x => x.base.name)) ∧
    (listCategories store b t p).map PopulatedCategory.subcategories =
      (listCategories store b t p).map
        (fun x => x.base.subcategories.filterMap (findById store)) ∧
    ∀ x ∈ listCategories store b t p, x.base.isActive = true := by
  refine ⟨?_, ?_, ?_, ?_⟩
  · have h1 : (listCategories store b t p).map PopulatedCategory.base
        = List.insertionSort nameLE (store.filter (matchesFilter b t p)) := by
      rw [listCategories, List.map_map]
      exact List.map_id'' (fun c => rfl) _
    rw [h1]
    exact List.perm_insertionSort nameLE _
  · have hs : List.Sorted nameLE
        (List.insertionSort nameLE (store.filter (matchesFilter b t p))) :=
      List.sorted_insertionSort nameLE _
    have h2 : (listCategories store b t p).map (fun x => x.base.name)
        = (List.insertionSort nameLE (store.filter (matchesFilter b t p))).map
            (fun c => c.name) := by
      simp [listCategories, List.map_map, Function.comp, populate]
    rw [h2]
    rw [List.Sorted] at hs ⊢
    exact List.pairwise_map.mpr hs
  · simp [listCategories, List.map_map, Function.comp, populate]
  · intro x hx
    simp only [listCategories, List.mem_map, List.mem_insertionSort] at hx
    obtain ⟨c, hc, rfl⟩ := hx
    have hm := (List.mem_filter.mp hc).2
    simp only [matchesFilter, Bool.and_eq_true] at hm
    simpa [populate] using hm.1.1.1

/-- Claim C1 witness: the general theorem applied at a concrete store. -/
theorem list_categories_spec_witness :
    ((listCategories [catActive] none none none).map PopulatedCategory.base).Perm
      ([catActive].filter (matchesFilter none none none)) ∧
    List.Sorted (· ≤ ·)
      ((listCategories [catActive] none none none).map (fun x => x.base.name)) ∧
    (listCategories [catActive] none none none).map PopulatedCategory.subcategories =
      (listCategories [catActive] none none none).map
        (fun x => x.base.subcategories.filterMap (findById [catActive])) ∧
    ∀ x ∈ listCategories [catActive] none none none, x.base.isActive = true :=
  list_categories_spec [catActive] none none none

/-- Claim C10: a supplied filter parameter whose value is the empty string is
falsy in the `if (q)` guards of lines 77-79, so the listing behaves exactly as
if that filter were absent. -/
theorem list_ignores_empty_filter (store : List Category) (q1 q2 : Option String) :
    listCategories store (some "") q1 q2 = listCategories store none q1 q2 ∧
    listCategories store q1 (some "") q2 = listCategories store q1 none q2 ∧
    listCategories store q1 q2 (some "") = listCategories store q1 q2 none := by
  have hb : ∀ f, condOpt (some "") f = condOpt none f := by
    intro f
    simp [condOpt, jsTruthy]
  have h1 : matchesFilter (some "") q1 q2 = matchesFilter none q1 q2 :=
    funext fun c => by simp [matchesFilter, hb]
  have h2 : matchesFilter q1 (some "") q2 = matchesFilter q1 none q2 :=
    funext fun c => by simp [matchesFilter, hb]
  have h3 : matchesFilter q1 q2 (some "") = matchesFilter q1 q2 none :=
    funext fun c => by simp [matchesFilter, hb]
  refine ⟨?_, ?_, ?_⟩
  · simp only [listCategories, h1]
  · simp only [listCategories, h2]
  · simp only [listCategories, h3]

/-- Claim C2: Get-by-identifier returns the stored document with
`subcategories` expanded one level whenever the identifier resolves — the
`isActive` flag is never consulted, so a soft-deleted document is still
returned with status 200 — and returns the explicit not-found signal (404,
distinct from the generic 500 failure) when it does not resolve. -/
theorem get_category_spec (store : List Category) (id : String) (c : Category) :
    (findById store id = some c →
      getCategory store id =
        .ok { base := c, subcategories := c.subcategories.filterMap (findById store) } ∧
      GetResult.status (getCategory store id) = 200) ∧
    (findById store id = none →
      getCategory store id = .notFound ∧
      GetResult.status (getCategory store id) = 404 ∧
      GetResult.status (getCategory store id) ≠ 500) := by
  constructor
  · intro h
    simp [getCategory, h, populate, GetResult.status]
  · intro h
    simp [getCategory, h, GetResult.status]

/-- Claim C2 witness: a soft-deleted (`isActive = false`) document is returned
with status 200, and an unknown identifier yields the 404 signal. -/
theorem get_category_spec_witness :
    catInactive.isActive = false ∧
    findById [catInactive] "idA" = some catInactive ∧
    (getCategory [catInactive] "idA" =
      .ok { base := catInactive,
            subcategories := catInactive.subcategories.filterMap (findById [catInactive]) } ∧
     GetResult.status (getCategory [catInactive] "idA") = 200) ∧
    findById [catInactive] "nope" = none ∧
    (getCategory [catInactive] "nope" = .notFound ∧
     GetResult.status (getCategory [catInactive] "nope") = 404 ∧
     GetResult.status (getCategory [catInactive] "nope") ≠ 500) :=
  ⟨by decide, by decide,
   (get_category_spec [catInactive] "idA" catInactive).1 (by decide),
   by decide,
   (get_category_spec [catInactive] "nope" catInactive).2 (by decide)⟩

/-- Claim C4: a Create request whose `name` is absent is rejected with the 400
validation failure (distinct from the 500 store failure) and the stored
collection is unchanged. -/
theorem create_missing_name_spec (store : List Category) (body : CreateBody)
    (newId : String) (now : Nat) (h : body.name = none) :
    createCategory store body newId now = (store, .validationError) ∧
    CreateResult.status (createCategory store body newId now).2 = 400 ∧
    CreateResult.status (createCategory store body newId now).2 ≠ 500 := by
  have ht : jsTruthy body.name = false := by rw [h]; rfl
  refine ⟨?_, ?_, ?_⟩ <;> simp [createCategory, ht, CreateResult.status]

/-- Claim C4 witness: creating with no `name` leaves the store unchanged and
returns the 400 validation failure. -/
theorem create_missing_name_spec_witness :
    cbNoName.name = none ∧
    (createCategory [catParent] cbNoName "idB" 7 = ([catParent], .validationError) ∧
     CreateResult.status (createCategory [catParent] cbNoName "idB" 7).2 = 400 ∧
     CreateResult.status (createCategory [catParent] cbNoName "idB" 7).2 ≠ 500) :=
  ⟨by decide, create_missing_name_spec [catParent] cbNoName "idB" 7 (by decide)⟩

/-- Claim C9: a Get, Update, or Soft-delete request whose identifier does not
resolve to a stored document answers the explicit 404 signal, never the
generic 500 failure, and leaves the store unchanged. -/
theorem unknown_id_spec (store : List Category) (id : String) (body : UpdateBody)
    (now : Nat) (h : findById store id = none) :
    getCategory store id = .notFound ∧
    GetResult.status (getCategory store id) = 404 ∧
    GetResult.status (getCategory store id) ≠ 500 ∧
    updateCategory store id body now = (store, .notFound) ∧
    UpdateResult.status (updateCategory store id body now).2 = 404 ∧
    UpdateResult.status (updateCategory store id body now).2 ≠ 500 ∧
    deleteCategory store id = (store, .notFound) ∧
    DeleteResult.status (deleteCategory store id).2 = 404 ∧
    DeleteResult.status (deleteCategory store id).2 ≠ 500 := by
  refine ⟨?_, ?_, ?_, ?_, ?_, ?_, ?_, ?_, ?_⟩ <;>
    simp [getCategory, updateCategory, deleteCategory, h,
      GetResult.status, UpdateResult.status, DeleteResult.status]

/-- Claim C9 witness: the three handlers on an unknown identifier at a
concrete store. -/
theorem unknown_id_spec_witness :
    findById [catActive] "nope" = none ∧
    (getCategory [catActive] "nope" = .notFound ∧
     GetResult.status (getCategory [catActive] "nope") = 404 ∧
     GetResult.status (getCategory [catActive] "nope") ≠ 500 ∧
     updateCategory [catActive] "nope" ubRename 9 = ([catActive], .notFound) ∧
     UpdateResult.status (updateCategory [catActive] "nope" ubRename 9).2 = 404 ∧
     UpdateResult.status (updateCategory [catActive] "nope" ubRename 9).2 ≠ 500 ∧
     deleteCategory [catActive] "nope" = ([catActive], .notFound) ∧
     DeleteResult.status (deleteCategory [catActive] "nope").2 = 404 ∧
     DeleteResult.status (deleteCategory [catActive] "nope").2 ≠ 500) :=
  ⟨by decide, unknown_id_spec [catActive] "nope" ubRename 9 (by decide)⟩

/-- Claim C5: an Update on an existing category changes exactly the stored
values of the supplied body fields (`name`, `description`, `icon`, `color`,
`isActive`) — an absent field keeps its stored value — refreshes `updatedAt`
to a value that is at least the previous `updatedAt`, and never modifies
`parentId`, `subcategories`, `businessId`, `tenantId`, or `createdAt`; every
other stored document is untouched. -/
theorem update_category_spec (store : List Category) (id : String) (body : UpdateBody)
    (now : Nat) (c : Category)
    (hfind : findById store id = some c) (hmono : c.updatedAt ≤ now) :
    (updateCategory store id body now).2 = .ok (applyUpdate body now c) ∧
    applyUpdate body now c ∈ (updateCategory store id body now).1 ∧
    findById (updateCategory store id body now).1 id = some (applyUpdate body now c) ∧
    (applyUpdate body now c).name = body.name.getD c.name ∧
    (applyUpdate body now c).description =
      (if body.description.isSome then body.description else c.description) ∧
    (applyUpdate body now c).icon = (if body.icon.isSome then body.icon else c.icon) ∧
    (applyUpdate body now c).color = (if body.color.isSome then body.color else c.color) ∧
    (applyUpdate body now c).isActive = body.isActive.getD c.isActive ∧
    (applyUpdate body now c).updatedAt = now ∧
    c.updatedAt ≤ (applyUpdate body now c).updatedAt ∧
    (applyUpdate body now c).parentId = c.parentId ∧
    (applyUpdate body now c).subcategories = c.subcategories ∧
    (applyUpdate body now c).businessId = c.businessId ∧
    (applyUpdate body now c).tenantId = c.tenantId ∧
    (applyUpdate body now c).createdAt = c.createdAt ∧
    (∀ d ∈ store, d.id ≠ id → d ∈ (updateCategory store id body now).1) ∧
    (updateCategory store id body now).1.length = store.length := by
  have h1 : updateCategory store id body now =
      (updateFirst id (fun d => applyUpdate body now d) store, .ok (applyUpdate body now c)) := by
    simp [updateCategory, hfind]
  rw [h1]
  refine ⟨rfl, mem_updateFirst_self _ hfind, findById_updateFirst rfl hfind,
    rfl, rfl, rfl, rfl, rfl, rfl, ?_, rfl, rfl, rfl, rfl, rfl,
    fun d hd hne => mem_updateFirst_of_ne _ hd hne,
    length_updateFirst _ _ _⟩
  simpa [applyUpdate] using hmono

/-- Claim C5 witness: renaming `catActive` while omitting the other body
fields keeps the omitted fields and the identity fields, and refreshes
`updatedAt`. -/
theorem update_category_spec_witness :
    findById [catActive] "idA" = some catActive ∧
    catActive.updatedAt ≤ 9 ∧
    (updateCategory [catActive] "idA" ubRename 9).2 = .ok (applyUpdate ubRename 9 catActive) ∧
    applyUpdate ubRename 9 catActive =
      { catActive with name := "Drinks", icon := some "ic", updatedAt := 9 } :=
  ⟨by decide, by decide,
   (update_category_spec [catActive] "idA" ubRename 9 catActive (by decide) (by decide)).1,
   by decide⟩

/-- Claim C6: a Soft-delete on an existing category loads the document, flips
`isActive` to `false`, and persists it under the same identifier; the document
remains stored (the collection keeps its length), no other document — in
particular no child — is altered, and the response is the bare confirmation
(`deleted`, which carries no document body). -/
theorem delete_category_spec (store : List Category) (id : String) (c : Category)
    (hfind : findById store id = some c) :
    (deleteCategory store id).2 = .deleted ∧
    DeleteResult.status (deleteCategory store id).2 = 200 ∧
    { c with isActive := false } ∈ (deleteCategory store id).1 ∧
    findById (deleteCategory store id).1 id = some { c with isActive := false } ∧
    ({ c with isActive := false }).isActive = false ∧
    (deleteCategory store id).1.length = store.length ∧
    (∀ d ∈ store, d.id ≠ id → d ∈ (deleteCategory store id).1) := by
  have h1 : deleteCategory store id =
      (updateFirst id (fun _ => { c with isActive := false }) store, .deleted) := by
    simp [deleteCategory, hfind]
  rw [h1]
  exact ⟨rfl, rfl, mem_updateFirst_self _ hfind, findById_updateFirst rfl hfind,
    rfl, length_updateFirst _ _ _, fun d hd hne => mem_updateFirst_of_ne _ hd hne⟩

/-- Claim C6 witness: soft-deleting the parent leaves its child document
untouched and keeps the parent stored with `isActive = false`. -/
theorem delete_category_spec_witness :
    findById [catParent, catActive] "idP" = some catParent ∧
    (deleteCategory [catParent, catActive] "idP").2 = .deleted ∧
    findById (deleteCategory [catParent, catActive] "idP").1 "idP" =
      some { catParent with isActive := false } ∧
    catActive ∈ (deleteCategory [catParent, catActive] "idP").1 :=
  ⟨by decide,
   (delete_category_spec [catParent, catActive] "idP" catParent (by decide)).1,
   (delete_category_spec [catParent, catActive] "idP" catParent (by decide)).2.2.2.1,
   (delete_category_spec [catParent, catActive] "idP" catParent (by decide)).2.2.2.2.2.2
     catActive (by decide) (by decide)⟩

/-- Claim C3: a successful Create persists the new document (built by
`newDoc`) and answers 201 with exactly that document; when `parentId` was not
supplied the store is exactly the old store with the new document appended;
when `parentId` was supplied the stored parent gains the new identifier in its
`subcategories` by an idempotent set-insert (an already-present identifier
leaves the list unchanged) and every document other than the parent is
untouched.  The hypotheses say the request succeeds: a truthy `name`, no
unique-index violation, and a server-assigned identifier distinct from the
requested parent. -/
theorem create_category_spec (store : List Category) (body : CreateBody) (newId : String)
    (now : Nat)
    (hname : jsTruthy body.name = true)
    (hdup : dupName store (body.name.getD "") = false)
    (hself : body.parentId ≠ some newId) :
    (createCategory store body newId now).2 = .created (newDoc body newId now) ∧
    CreateResult.status (createCategory store body newId now).2 = 201 ∧
    newDoc body newId now ∈ (createCategory store body newId now).1 ∧
    (jsTruthy body.parentId = false →
      (createCategory store body newId now).1 = store ++ [newDoc body newId now]) ∧
    (∀ p, jsTruthy body.parentId = true →
      findById store (body.parentId.getD "") = some p →
      findById (createCategory store body newId now).1 (body.parentId.getD "") =
        some { p with subcategories :=
          if newId ∈ p.subcategories then p.subcategories else p.subcategories ++ [newId] }) ∧
    (∀ d ∈ store, d.id ≠ body.parentId.getD "" → d ∈ (createCategory store body newId now).1) := by
  by_cases hp : jsTruthy body.parentId = true
  · have h1 : createCategory store body newId now =
        (updateFirst (body.parentId.getD "")
          (fun p => { p with subcategories := addToSet newId p.subcategories })
          (store ++ [newDoc body newId now]), .created (newDoc body newId now)) := by
      simp [createCategory, hname, hdup, hp]
    have hne : newId ≠ body.parentId.getD "" := by
      intro he
      apply hself
      cases hbp : body.parentId with
      | none => rw [hbp] at hp; simp [jsTruthy] at hp
      | some s =>
        rw [hbp] at he
        simp only [Option.getD_some] at he
        rw [he]
    rw [h1]
    refine ⟨rfl, rfl, ?_, ?_, ?_, ?_⟩
    · exact mem_updateFirst_of_ne _ (List.mem_append_right store (List.mem_singleton_self _)) hne
    · intro hfalse
      rw [hp] at hfalse
      cases hfalse
    · intro p _ hfindp
      have h2 := findById_append_left hfindp [newDoc body newId now]
      have h3 := findById_updateFirst
        (f := fun p => { p with subcategories := addToSet newId p.subcategories }) rfl h2
      simpa [addToSet] using h3
    · intro d hd hne2
      exact mem_updateFirst_of_ne _ (List.mem_append_left _ hd) hne2
  · have hp0 : jsTruthy body.parentId = false := by
      cases h : jsTruthy body.parentId
      · rfl
      · exact absurd h hp
    have h1 : createCategory store body newId now =
        (store ++ [newDoc body newId now], .created (newDoc body newId now)) := by
      simp [createCategory, hname, hdup, hp0]
    rw [h1]
    refine ⟨rfl, rfl, ?_, fun _ => rfl, ?_, ?_⟩
    · exact List.mem_append_right store (List.mem_singleton_self _)
    · intro p hptruthy _
      rw [hp0] at hptruthy
      cases hptruthy
    · intro d hd _
      exact List.mem_append_left _ hd

/-- Claim C3 witness: creating "Pizza" under parent `catParent` answers 201
with the new document and set-inserts `"idB"` into the parent's
`subcategories`. -/
theorem create_category_spec_witness :
    jsTruthy cbChild.name = true ∧
    dupName [catParent] (cbChild.name.getD "") = false ∧
    cbChild.parentId ≠ some "idB" ∧
    (createCategory [catParent] cbChild "idB" 7).2 = .created (newDoc cbChild "idB" 7) ∧
    findById (createCategory [catParent] cbChild "idB" 7).1 (cbChild.parentId.getD "") =
      some { catParent with subcategories :=
        if "idB" ∈ catParent.subcategories then catParent.subcategories
        else catParent.subcategories ++ ["idB"] } :=
  ⟨by decide, by decide, by decide,
   (create_category_spec [catParent] cbChild "idB" 7 (by decide) (by decide) (by decide)).1,
   (create_category_spec [catParent] cbChild "idB" 7 (by decide) (by decide)
     (by decide)).2.2.2.2.1 catParent (by decide) (by decide)⟩

/-- Claim C7 counterexample: soft-delete is a mutation (it flips `isActive`
and persists), yet the stored `updatedAt` keeps its pre-mutation value 3 — in
particular a soft-delete performed at any later time (say 9) leaves
`updatedAt ≠ 9` — so the stored `updatedAt` is not refreshed to the time of
that mutation.  The DELETE handler (lines 230-256) never writes `updatedAt`
and the schema declares no update hook for it. -/
theorem delete_updatedAt_unchanged_cex :
    catTs.updatedAt = 3 ∧
    (deleteCategory [catTs] "idT").2 = .deleted ∧
    findById (deleteCategory [catTs] "idT").1 "idT" = some { catTs with isActive := false } ∧
    (findById (deleteCategory [catTs] "idT").1 "idT").map Category.updatedAt = some 3 ∧
    ¬ (findById (deleteCategory [catTs] "idT").1 "idT").map Category.updatedAt = some 9 := by
  decide

/-- Claim C7 amended: `createdAt` is set once at creation and never changed by
Update or Soft-delete; `updatedAt` is set at creation and refreshed to the
mutation time by Update, but Soft-delete leaves `updatedAt` (and `createdAt`)
unchanged. -/
theorem timestamps_amended_spec (store : List Category) (cb : CreateBody) (ub : UpdateBody)
    (id newId : String) (now : Nat) (c : Category)
    (hname : jsTruthy cb.name = true)
    (hdup : dupName store (cb.name.getD "") = false)
    (hfind : findById store id = some c) :
    ((createCategory store cb newId now).2 = .created (newDoc cb newId now) ∧
      (newDoc cb newId now).createdAt = now ∧
      (newDoc cb newId now).updatedAt = now) ∧
    ((updateCategory store id ub now).2 = .ok (applyUpdate ub now c) ∧
      (applyUpdate ub now c).updatedAt = now ∧
      (applyUpdate ub now c).createdAt = c.createdAt) ∧
    ((deleteCategory store id).2 = .deleted ∧
      findById (deleteCategory store id).1 id = some { c with isActive := false } ∧
      ({ c with isActive := false }).updatedAt = c.updatedAt ∧
      ({ c with isActive := false }).createdAt = c.createdAt) := by
  refine ⟨⟨?_, rfl, rfl⟩, ⟨?_, rfl, rfl⟩, ⟨?_, ?_, rfl, rfl⟩⟩
  · simp [createCategory, hname, hdup]
  · simp [updateCategory, hfind]
  · simp [deleteCategory, hfind]
  · have h1 : deleteCategory store id =
        (updateFirst id (fun _ => { c with isActive := false }) store, .deleted) := by
      simp [deleteCategory, hfind]
    rw [h1]
    exact findById_updateFirst rfl hfind

/-- Claim C7 amended witness: concrete creation and soft-delete timestamps. -/
theorem timestamps_amended_spec_witness :
    jsTruthy cbChild.name = true ∧
    dupName [catTs] (cbChild.name.getD "") = false ∧
    findById [catTs] "idT" = some catTs ∧
    ((createCategory [catTs] cbChild "idB" 9).2 = .created (newDoc cbChild "idB" 9) ∧
      (newDoc cbChild "idB" 9).createdAt = 9 ∧
      (newDoc cbChild "idB" 9).updatedAt = 9) ∧
    ((deleteCategory [catTs] "idT").2 = .deleted ∧
      findById (deleteCategory [catTs] "idT").1 "idT" = some { catTs with isActive := false } ∧
      ({ catTs with isActive := false }).updatedAt = catTs.updatedAt ∧
      ({ catTs with isActive := false }).createdAt = catTs.createdAt) :=
  ⟨by decide, by decide, by decide,
   (timestamps_amended_spec [catTs] cbChild ubRename "idT" "idB" 9 catTs
     (by decide) (by decide) (by decide)).1,
   (timestamps_amended_spec [catTs] cbChild ubRename "idT" "idB" 9 catTs
     (by decide) (by decide) (by decide)).2.2⟩

/-- Claim C8 counterexample: the PUT handler passes the body's `isActive`
straight into the update (lines 194-204), so updating a soft-deleted category
with `isActive: true` stores it as active again — the Inactive state is not
terminal. -/
theorem update_reactivates_cex :
    catInactive.isActive = false ∧
    (updateCategory [catInactive] "idA" ubReactivate 9).2 =
      .ok { catInactive with isActive := true, updatedAt := 9 } ∧
    (findById (updateCategory [catInactive] "idA" ubReactivate 9).1 "idA").map
      Category.isActive = some true := by
  decide

/-- Claim C8 amended: Soft-delete performs the Active → Inactive transition and
an Update whose body omits `isActive` preserves the flag, but Update with
`isActive = true` is an exposed operation that transitions an Inactive
category back to Active, so the transition is not one-directional. -/
theorem active_flag_amended_spec (store : List Category) (id : String) (ub : UpdateBody)
    (now : Nat) (c : Category) (hfind : findById store id = some c) :
    (findById (deleteCategory store id).1 id = some { c with isActive := false } ∧
      ({ c with isActive := false }).isActive = false) ∧
    (ub.isActive = none → (applyUpdate ub now c).isActive = c.isActive) ∧
    (ub.isActive = some true →
      (updateCategory store id ub now).2 = .ok (applyUpdate ub now c) ∧
      (applyUpdate ub now c).isActive = true ∧
      findById (updateCategory store id ub now).1 id = some (applyUpdate ub now c)) := by
  refine ⟨⟨?_, rfl⟩, ?_, ?_⟩
  · have h1 : deleteCategory store id =
        (updateFirst id (fun _ => { c with isActive := false }) store, .deleted) := by
      simp [deleteCategory, hfind]
    rw [h1]
    exact findById_updateFirst rfl hfind
  · intro h
    simp [applyUpdate, h]
  · intro h
    have h1 : updateCategory store id ub now =
        (updateFirst id (fun d => applyUpdate ub now d) store, .ok (applyUpdate ub now c)) := by
      simp [updateCategory, hfind]
    rw [h1]
    exact ⟨rfl, by simp [applyUpdate, h], findById_updateFirst rfl hfind⟩

/-- Claim C8 amended witness: reactivating the stored inactive document. -/
theorem active_flag_amended_spec_witness :
    findById [catInactive] "idA" = some catInactive ∧
    ubReactivate.isActive = some true ∧
    ((updateCategory [catInactive] "idA" ubReactivate 9).2 =
        .ok (applyUpdate ubReactivate 9 catInactive) ∧
      (applyUpdate ubReactivate 9 catInactive).isActive = true ∧
      findById (updateCategory [catInactive] "idA" ubReactivate 9).1 "idA" =
        some (applyUpdate ubReactivate 9 catInactive)) :=
  ⟨by decide, by decide,
   (active_flag_amended_spec [catInactive] "idA" ubReactivate 9 catInactive
     (by decide)).2.2 (by decide)⟩
